import Mathlib

/-
Verification of the messaging abstraction layer of the speech-analyzer
repository (src/queueing/queue_manager.py, src/queueing/queue_strategy.py).

The embedding is shallow: Python dictionaries become insertion-ordered
association lists, object identity of callbacks becomes a numeric identity,
the mutable payload dictionary passed to QueueManager.publish lives in an
explicit heap (a list of dictionaries indexed by address), and all external
effects (the Redis server, the MQTT broker, the wall clock, exceptions
escaping strategy construction) are captured in an explicit `World` record.
Backend invocations made by the manager (factory calls, strategy publish /
subscribe / unsubscribe calls) are recorded as an event trace so that claims
about "how many backend calls happen" are directly statable.
-/

set_option autoImplicit false

/-- JSON-compatible values, the payloads handled by the queueing layer. -/
inductive JVal where
  | jnull
  | jbool (b : Bool)
  | jint (n : Int)
  | jstr (s : String)
  | jarr (elems : List JVal)
  | jobj (fields : List (String × JVal))

/-- A Python dictionary with string keys: an insertion-ordered association
list.  Python dictionaries keep insertion order and hold each key once. -/
abbrev Dict : Type := List (String × JVal)

/-- Lookup in an insertion-ordered association list (`d[k]` / `d.get(k)`). -/
def alookup {α : Type} : List (String × α) → String → Option α
  | [], _ => none
  | (k2, v) :: rest, k => if k2 = k then some v else alookup rest k

/-- Python `d[k] = v`: replace the value in place if the key is present,
append the pair at the end otherwise. -/
def aset {α : Type} : List (String × α) → String → α → List (String × α)
  | [], k, v => [(k, v)]
  | (k2, v2) :: rest, k, v =>
      if k2 = k then (k2, v) :: rest else (k2, v2) :: aset rest k v

/-- Python `del d[k]` (on a dictionary with unique keys): drop the entry. -/
def adel {α : Type} (l : List (String × α)) (k : String) : List (String × α) :=
  l.filter (fun kv => kv.1 != k)

/-- Python `k in d`. -/
def hasKey {α : Type} (l : List (String × α)) (k : String) : Bool :=
  (alookup l k).isSome

mutual
/-- Embeds `json.dumps` (default separators) on a JSON value; mutual with the
serialization of arrays and of object field lists. -/
def dumpsVal : JVal → String
  | .jnull => "null"
  | .jbool true => "true"
  | .jbool false => "false"
  | .jint n => toString n
  | .jstr s => "\"" ++ s ++ "\""
  | .jarr xs => "[" ++ dumpsArr xs ++ "]"
  | .jobj kvs => "\x7b" ++ dumpsObj kvs ++ "\x7d"

def dumpsArr : List JVal → String
  | [] => ""
  | [x] => dumpsVal x
  | x :: y :: xs => dumpsVal x ++ ", " ++ dumpsArr (y :: xs)

def dumpsObj : List (String × JVal) → String
  | [] => ""
  | [(k, v)] => "\"" ++ k ++ "\": " ++ dumpsVal v
  | (k, v) :: kv2 :: kvs => "\"" ++ k ++ "\": " ++ dumpsVal v ++ ", " ++ dumpsObj (kv2 :: kvs)
end

/-- Embeds `json.dumps(data)` on a dictionary payload. -/
def dumps (d : Dict) : String := dumpsVal (.jobj d)

/-- A broken-down wall-clock time, the input of `time.strftime`. -/
structure Tm where
  year : Nat
  month : Nat
  day : Nat
  hour : Nat
  minute : Nat
  second : Nat

/-- Decimal digit character for a digit value below ten. -/
def digitChar (n : Nat) : Char := Char.ofNat (48 + n)

/-- Accumulator-style decimal printer (the standard algorithm behind the
decimal rendering used by `strftime` field formatting). -/
def decimalAux (n : Nat) (acc : List Char) : List Char :=
  if h : n = 0 then acc
  else decimalAux (n / 10) (digitChar (n % 10) :: acc)
termination_by n
decreasing_by exact Nat.div_lt_self (Nat.pos_of_ne_zero h) (by decide)

/-- Decimal rendering of a natural number as a character list. -/
def decimalChars (n : Nat) : List Char :=
  if n = 0 then ['0'] else decimalAux n []

/-- Zero-pad a decimal rendering on the left to width `w` (the behavior of
the `%Y`, `%m`, `%d`, `%H`, `%M`, `%S` conversions of `strftime`). -/
def padChars (w n : Nat) : List Char :=
  List.replicate (w - (decimalChars n).length) '0' ++ decimalChars n

/-- Character sequence of `time.strftime("%Y-%m-%d %H:%M:%S")`. -/
def strftimeChars (t : Tm) : List Char :=
  padChars 4 t.year ++ '-' :: (padChars 2 t.month ++ '-' :: (padChars 2 t.day ++
    ' ' :: (padChars 2 t.hour ++ ':' :: (padChars 2 t.minute ++ ':' :: padChars 2 t.second))))

/-- Embeds `time.strftime("%Y-%m-%d %H:%M:%S")` on a broken-down time. -/
def strftimeYmdHMS (t : Tm) : String := ⟨strftimeChars t⟩

/-- One position of a timestamp format mask: a digit or a literal char. -/
inductive FSpec where
  | digit
  | lit (c : Char)
deriving DecidableEq

/-- Whether a character list matches a format mask position by position. -/
def matchesMask : List FSpec → List Char → Bool
  | [], [] => true
  | .digit :: ms, c :: cs => c.isDigit && matchesMask ms cs
  | .lit l :: ms, c :: cs => (c == l) && matchesMask ms cs
  | _, _ => false

/-- The mask of the format `YYYY-MM-DD HH:MM:SS`. -/
def tsMask : List FSpec :=
  List.replicate 4 .digit ++ .lit '-' :: (List.replicate 2 .digit ++ .lit '-' ::
    (List.replicate 2 .digit ++ .lit ' ' :: (List.replicate 2 .digit ++ .lit ':' ::
      (List.replicate 2 .digit ++ .lit ':' :: List.replicate 2 .digit))))

/-- A string has the shape `YYYY-MM-DD HH:MM:SS`. -/
def isTimestampFormat (s : String) : Bool := matchesMask tsMask s.data

theorem digitChar_isDigit (d : Nat) (h : d < 10) : (digitChar d).isDigit = true := by
  have key : ∀ x : Fin 10, (digitChar x.val).isDigit = true := by decide
  exact key ⟨d, h⟩

theorem decimalAux_all_digits (n : Nat) :
    ∀ acc : List Char, acc.all Char.isDigit = true →
      (decimalAux n acc).all Char.isDigit = true := by
  induction n using Nat.strong_induction_on with
  | _ n ih =>
    intro acc hacc
    rw [decimalAux]
    by_cases h : n = 0
    · simp [h, hacc]
    · simp only [h, dite_false]
      have hlt : n / 10 < n := Nat.div_lt_self (Nat.pos_of_ne_zero h) (by decide)
      apply ih _ hlt
      simp only [List.all_cons, Bool.and_eq_true]
      exact ⟨digitChar_isDigit _ (Nat.mod_lt _ (by decide)), hacc⟩

theorem decimalAux_length (k : Nat) :
    ∀ n acc, n < 10 ^ k → (decimalAux n acc).length ≤ acc.length + k := by
  induction k with
  | zero =>
    intro n acc hn
    have : n = 0 := Nat.lt_one_iff.mp hn
    rw [decimalAux]
    simp [this]
  | succ k ih =>
    intro n acc hn
    rw [decimalAux]
    by_cases h : n = 0
    · simp only [h, dite_true]
      omega
    · simp only [h, dite_false]
      have hdiv : n / 10 < 10 ^ k := by
        rw [Nat.div_lt_iff_lt_mul (by decide : 0 < 10)]
        calc n < 10 ^ (k + 1) := hn
        _ = 10 ^ k * 10 := by rw [pow_succ]
      have key := ih (n / 10) (digitChar (n % 10) :: acc) hdiv
      simp only [List.length_cons] at key
      omega

theorem decimalChars_all_digits (n : Nat) :
    (decimalChars n).all Char.isDigit = true := by
  unfold decimalChars
  by_cases h : n = 0
  · simp [h]
  · simp only [h, if_false]
    exact decimalAux_all_digits n [] rfl

theorem decimalChars_length_le (w n : Nat) (hw : 1 ≤ w) (hn : n < 10 ^ w) :
    (decimalChars n).length ≤ w := by
  unfold decimalChars
  by_cases h : n = 0
  · simpa [h] using hw
  · simp only [h, if_false]
    have := decimalAux_length w n [] hn
    simpa using this

theorem padChars_length (w n : Nat) (hw : 1 ≤ w) (hn : n < 10 ^ w) :
    (padChars w n).length = w := by
  unfold padChars
  have hle := decimalChars_length_le w n hw hn
  rw [List.length_append, List.length_replicate]
  omega

theorem padChars_all_digits (w n : Nat) :
    (padChars w n).all Char.isDigit = true := by
  unfold padChars
  simp only [List.all_append, Bool.and_eq_true]
  constructor
  · rw [List.all_eq_true]
    intro c hc
    have hc0 : c = '0' := List.eq_of_mem_replicate hc
    rw [hc0]
    decide
  · exact decimalChars_all_digits n

theorem matchesMask_digits_append (ds : List Char) :
    ∀ (ms : List FSpec) (cs : List Char),
      ds.all Char.isDigit = true → matchesMask ms cs = true →
      matchesMask (List.replicate ds.length .digit ++ ms) (ds ++ cs) = true := by
  induction ds with
  | nil => intro ms cs _ h; simpa using h
  | cons d ds ih =>
    intro ms cs hall h
    simp only [List.all_cons, Bool.and_eq_true] at hall
    simp only [List.length_cons, List.replicate_succ, List.cons_append, matchesMask]
    rw [Bool.and_eq_true]
    exact ⟨hall.1, ih ms cs hall.2 h⟩

theorem matchesMask_lit_cons (c : Char) (ms : List FSpec) (cs : List Char)
    (h : matchesMask ms cs = true) :
    matchesMask (.lit c :: ms) (c :: cs) = true := by
  simp [matchesMask, h]

theorem matchesMask_pad_append (w n : Nat) (hw : 1 ≤ w) (hn : n < 10 ^ w)
    (ms : List FSpec) (cs : List Char) (h : matchesMask ms cs = true) :
    matchesMask (List.replicate w .digit ++ ms) (padChars w n ++ cs) = true := by
  have key := matchesMask_digits_append (padChars w n) ms cs
    (padChars_all_digits w n) h
  rwa [padChars_length w n hw hn] at key

/-- The embedded `strftime` output always has the `YYYY-MM-DD HH:MM:SS` shape
for in-range times (year below 10000, the other fields below 100). -/
theorem strftime_format (t : Tm) (hy : t.year < 10000) (hmo : t.month < 100)
    (hd : t.day < 100) (hh : t.hour < 100) (hmi : t.minute < 100)
    (hs : t.second < 100) : isTimestampFormat (strftimeYmdHMS t) = true := by
  show matchesMask tsMask (strftimeChars t) = true
  unfold tsMask strftimeChars
  apply matchesMask_pad_append 4 t.year (by decide) (by simpa using hy)
  apply matchesMask_lit_cons
  apply matchesMask_pad_append 2 t.month (by decide) (by simpa using hmo)
  apply matchesMask_lit_cons
  apply matchesMask_pad_append 2 t.day (by decide) (by simpa using hd)
  apply matchesMask_lit_cons
  apply matchesMask_pad_append 2 t.hour (by decide) (by simpa using hh)
  apply matchesMask_lit_cons
  apply matchesMask_pad_append 2 t.minute (by decide) (by simpa using hmi)
  apply matchesMask_lit_cons
  have base : matchesMask [] [] = true := rfl
  have key := matchesMask_pad_append 2 t.second (by decide) (by simpa using hs) [] [] base
  simpa using key

/-- The external world as observed during one call into the queueing layer:
the wall clock, the Redis server, the MQTT broker and library, and whether an
exception escapes strategy construction inside `QueueManager.initialize`
(only possible from malformed keyword arguments, since every enumerated
strategy catches its own internal errors). -/
structure World where
  time : Tm
  redisUp : Bool
  redisErrMsg : String
  initRaises : Bool
  mqttImportOk : Bool
  mqttConnectCallOk : Bool
  mqttErrMsg : String
  mqttConfirms : List Nat
  mqttSubRc : Nat
  mqttUnsubRc : Nat
  mqttPubRc : Nat

/-- State of a `LoggingQueueStrategy` instance: only its topic-to-callback
table (`self.callbacks`); callbacks are identified by a numeric identity. -/
structure LogState where
  callbacks : List (String × Nat)

/-- A fresh `LoggingQueueStrategy()`. -/
def freshLog : LogState := { callbacks := [] }

/-- Embeds `LoggingQueueStrategy.connect`: always succeeds. -/
def LoggingQueueStrategy.connect (st : LogState) : LogState × Bool := (st, true)

/-- Embeds `LoggingQueueStrategy.publish`: logs and returns True. -/
def LoggingQueueStrategy.publish (st : LogState) (_topic : String) (_data : Dict) :
    LogState × Bool := (st, true)

/-- Embeds `LoggingQueueStrategy.subscribe`: stores the callback, returns True. -/
def LoggingQueueStrategy.subscribe (st : LogState) (topic : String) (cb : Nat) :
    LogState × Bool := ({ callbacks := aset st.callbacks topic cb }, true)

/-- Embeds `LoggingQueueStrategy.unsubscribe`: drops the callback if present,
returns True. -/
def LoggingQueueStrategy.unsubscribe (st : LogState) (topic : String) :
    LogState × Bool := ({ callbacks := adel st.callbacks topic }, true)

/-- State of a `RedisQueueStrategy` instance.  `redis_client` and `pubsub`
record whether those handles are non-None; `store` models the Redis server's
key-to-list map reached through the client (used by lpush/ltrim), with the
head of each list being the newest element. -/
structure RedisState where
  redis_client : Bool
  pubsub : Bool
  callbacks : List (String × Nat)
  subscription_threads : List String
  _status : String
  store : List (String × List String)

/-- A fresh `RedisQueueStrategy(url)` (the url only feeds `redis.from_url`,
whose outcome the `World` models via `redisUp`). -/
def freshRedis : RedisState :=
  { redis_client := false, pubsub := false, callbacks := [],
    subscription_threads := [], _status := "initialized", store := [] }

/-- Embeds `RedisQueueStrategy.connect`: no-op if a client exists, otherwise
opens the client and pings; on failure captures the error into status. -/
def RedisQueueStrategy.connect (w : World) (st : RedisState) : RedisState × Bool :=
  if st.redis_client then (st, true)
  else if w.redisUp then
    ({ st with redis_client := true, pubsub := true, _status := "connected" }, true)
  else
    ({ st with _status := "error: " ++ w.redisErrMsg, redis_client := false }, false)

/-- Embeds `RedisQueueStrategy.publish`: connect if needed, serialize with
`json.dumps`, publish on the channel, then lpush onto `history:<topic>` and
ltrim that list to indices 0..99 (keep the first 100). -/
def RedisQueueStrategy.publish (w : World) (st : RedisState) (topic : String)
    (data : Dict) : RedisState × Bool :=
  let cr := if st.redis_client then (st, true) else RedisQueueStrategy.connect w st
  if cr.2 = false then (cr.1, false)
  else
    let st1 := cr.1
    if w.redisUp = false then (st1, false)
    else
      let msg := dumps data
      let key := "history:" ++ topic
      let hist := (alookup st1.store key).getD []
      ({ st1 with store := aset st1.store key ((msg :: hist).take 100) }, true)

/-- Embeds `RedisQueueStrategy.subscribe`: connect if needed, store the
callback in `self.callbacks` (overwriting any previous one for the topic),
register the channel with the pub/sub handle, and start a listener thread for
the topic if none exists yet. -/
def RedisQueueStrategy.subscribe (w : World) (st : RedisState) (topic : String)
    (cb : Nat) : RedisState × Bool :=
  let cr := if st.redis_client then (st, true) else RedisQueueStrategy.connect w st
  if cr.2 = false then (cr.1, false)
  else
    let st1 := { cr.1 with callbacks := aset cr.1.callbacks topic cb }
    if w.redisUp = false then (st1, false)
    else if st1.subscription_threads.contains topic then (st1, true)
    else ({ st1 with subscription_threads := st1.subscription_threads ++ [topic] }, true)

/-- Embeds `RedisQueueStrategy.unsubscribe`: fails if no pub/sub handle,
otherwise removes the channel registration, the callback and the thread
bookkeeping entry. -/
def RedisQueueStrategy.unsubscribe (w : World) (st : RedisState) (topic : String) :
    RedisState × Bool :=
  if st.pubsub = false then (st, false)
  else if w.redisUp = false then (st, false)
  else
    ({ st with callbacks := adel st.callbacks topic,
               subscription_threads := st.subscription_threads.filter (fun t => t != topic) },
     true)

/-- Embeds the `is_connected` property of `RedisQueueStrategy`: a live ping
on every check. -/
def RedisQueueStrategy.is_connected (w : World) (st : RedisState) : Bool :=
  st.redis_client && w.redisUp

/-- Embeds `RedisQueueStrategy._message_handler`'s callback selection: an
incoming message on a channel is dispatched to `self.callbacks[topic]` when
that key is present, and dropped otherwise. -/
def RedisQueueStrategy.dispatchTarget (st : RedisState) (topic : String) : Option Nat :=
  alookup st.callbacks topic

/-- State of an `MQTTQueueStrategy` instance.  `client` records whether the
paho client handle is non-None. -/
structure MqttState where
  client : Bool
  _status : String
  _connected : Bool
  callbacks : List (String × Nat)
  subscribed_topics : List String

/-- A fresh `MQTTQueueStrategy(...)` (broker parameters feed the external
connection, modelled by the `World`). -/
def freshMqtt : MqttState :=
  { client := false, _status := "initialized", _connected := false,
    callbacks := [], subscribed_topics := [] }

/-- Embeds the `is_connected` property of `MQTTQueueStrategy`. -/
def MQTTQueueStrategy.is_connected (st : MqttState) : Bool :=
  st.client && st._connected

/-- Embeds `MQTTQueueStrategy.unsubscribe`: fails when not connected;
otherwise issues the broker call, drops the callback and the tracked topic,
and reports success exactly when the broker returns code 0. -/
def MQTTQueueStrategy.unsubscribe (w : World) (st : MqttState) (topic : String) :
    MqttState × Bool :=
  if MQTTQueueStrategy.is_connected st = false then (st, false)
  else
    let st1 := { st with callbacks := adel st.callbacks topic,
                         subscribed_topics := st.subscribed_topics.filter (fun t => t != topic) }
    (st1, w.mqttUnsubRc = 0)

/-- Embeds `MQTTQueueStrategy.close`: when a client exists, try to
unsubscribe every topic with a registered callback (each attempt checks
`is_connected` first), stop the loop, disconnect, and in all cases clear the
client, the connected flag and set status to disconnected. -/
def MQTTQueueStrategy.close (w : World) (st : MqttState) : MqttState :=
  if st.client then
    let st1 := (st.callbacks.map Prod.fst).foldl
      (fun s t => (MQTTQueueStrategy.unsubscribe w s t).1) st
    { st1 with client := false, _connected := false, _status := "disconnected" }
  else st

/-- Embeds `MQTTQueueStrategy.connect`.  Early-returns true when a connected
client exists.  Otherwise imports paho, creates the client, registers the
handlers, calls `client.connect` and polls `_status` for up to five seconds.
`w.mqttConfirms` lists the result codes delivered to the on-connect handler
during that window: a code 0 sets status "connected" and the connected flag.
If the poll never observes status "connected", the strategy closes itself and
records the connection-timeout error.  (The five-second bound itself is wall
clock time, outside the embedding.) -/
def MQTTQueueStrategy.connect (w : World) (st : MqttState) : MqttState × Bool :=
  if st.client && MQTTQueueStrategy.is_connected st then (st, true)
  else if w.mqttImportOk = false then
    ({ st with _status := "error: paho-mqtt not installed" }, false)
  else
    let st1 := { st with client := true }
    if w.mqttConnectCallOk = false then
      ({ st1 with _status := "error: " ++ w.mqttErrMsg }, false)
    else if w.mqttConfirms.contains 0 then
      ({ st1 with _status := "connected", _connected := true }, true)
    else if st1._status = "connected" then
      (st1, true)
    else
      let st2 := MQTTQueueStrategy.close w st1
      ({ st2 with _status := "error: connection timeout" }, false)

/-- Embeds `MQTTQueueStrategy.publish`: reconnect if needed, send with the
configured QoS and retain flag, succeed exactly on broker return code 0. -/
def MQTTQueueStrategy.publish (w : World) (st : MqttState) (_topic : String)
    (_data : Dict) : MqttState × Bool :=
  let cr := if MQTTQueueStrategy.is_connected st then (st, true)
            else MQTTQueueStrategy.connect w st
  if cr.2 = false then (cr.1, false)
  else (cr.1, w.mqttPubRc = 0)

/-- Embeds `MQTTQueueStrategy.subscribe`: reconnect if needed, store the
callback (overwriting any previous one for the topic), track the topic, issue
the broker subscribe, succeed exactly on result code 0. -/
def MQTTQueueStrategy.subscribe (w : World) (st : MqttState) (topic : String)
    (cb : Nat) : MqttState × Bool :=
  let cr := if MQTTQueueStrategy.is_connected st then (st, true)
            else MQTTQueueStrategy.connect w st
  if cr.2 = false then (cr.1, false)
  else
    let st1 := { cr.1 with
      callbacks := aset cr.1.callbacks topic cb,
      subscribed_topics := if cr.1.subscribed_topics.contains topic
                           then cr.1.subscribed_topics
                           else cr.1.subscribed_topics ++ [topic] }
    (st1, w.mqttSubRc = 0)

/-- Embeds the callback selection of the `on_message` handler installed by
`MQTTQueueStrategy.connect`: an incoming message is dispatched to
`self.callbacks[topic]` when present, and dropped otherwise. -/
def MQTTQueueStrategy.dispatchTarget (st : MqttState) (topic : String) : Option Nat :=
  alookup st.callbacks topic

/-- A constructed strategy instance: one of the three concrete backends. -/
inductive Strat where
  | redis (st : RedisState)
  | mqtt (st : MqttState)
  | logging (st : LogState)

/-- Keyword-argument names accepted by `RedisQueueStrategy.__init__`
(`url` is required, and it is the only parameter). -/
def redisInitOk (kwargs : List String) : Bool :=
  kwargs.contains "url" && kwargs.all (fun k => k == "url")

/-- Keyword-argument names accepted by `MQTTQueueStrategy.__init__`
(`broker_url` is required; the rest have defaults). -/
def mqttInitOk (kwargs : List String) : Bool :=
  kwargs.contains "broker_url" &&
    kwargs.all (fun k =>
      k == "broker_url" || k == "port" || k == "client_id" || k == "username" ||
      k == "password" || k == "qos" || k == "retain")

/-- Keyword-argument names accepted by `LoggingQueueStrategy.__init__`
(only the optional `log_level`). -/
def loggingInitOk (kwargs : List String) : Bool :=
  kwargs.all (fun k => k == "log_level")

/-- Embeds Python `str.lower` (ASCII case folding). -/
def pyLower (s : String) : String :=
  ⟨s.data.map (fun c => if 'A' ≤ c && c ≤ 'Z' then Char.ofNat (c.toNat + 32) else c)⟩

/-- Embeds `QueueStrategyFactory.create_strategy(queue_type, **kwargs)`.
The dispatch lowercases the tag; an unrecognized tag falls back to the
Logging strategy instead of raising.  A call whose keyword arguments do not
fit the chosen constructor raises `TypeError` in Python, modelled as
`Except.error`. -/
def QueueStrategyFactory.create_strategy (queue_type : String)
    (kwargs : List String) : Except String Strat :=
  if pyLower queue_type = "redis" then
    if redisInitOk kwargs then .ok (.redis freshRedis)
    else .error "TypeError: RedisQueueStrategy arguments"
  else if pyLower queue_type = "mqtt" then
    if mqttInitOk kwargs then .ok (.mqtt freshMqtt)
    else .error "TypeError: MQTTQueueStrategy arguments"
  else if pyLower queue_type = "logging" then
    if loggingInitOk kwargs then .ok (.logging freshLog)
    else .error "TypeError: LoggingQueueStrategy arguments"
  else
    if loggingInitOk kwargs then .ok (.logging freshLog)
    else .error "TypeError: LoggingQueueStrategy arguments"

/-- Dispatch of the `is_connected` property across the three backends. -/
def Strat.is_connected (w : World) : Strat → Bool
  | .redis r => RedisQueueStrategy.is_connected w r
  | .mqtt m => MQTTQueueStrategy.is_connected m
  | .logging _ => true

/-- Dispatch of `publish` across the three backends. -/
def Strat.publish (w : World) (s : Strat) (topic : String) (data : Dict) :
    Strat × Bool :=
  match s with
  | .redis r => let p := RedisQueueStrategy.publish w r topic data
                (.redis p.1, p.2)
  | .mqtt m => let p := MQTTQueueStrategy.publish w m topic data
               (.mqtt p.1, p.2)
  | .logging l => let p := LoggingQueueStrategy.publish l topic data
                  (.logging p.1, p.2)

/-- Dispatch of `subscribe` across the three backends. -/
def Strat.subscribe (w : World) (s : Strat) (topic : String) (cb : Nat) :
    Strat × Bool :=
  match s with
  | .redis r => let p := RedisQueueStrategy.subscribe w r topic cb
                (.redis p.1, p.2)
  | .mqtt m => let p := MQTTQueueStrategy.subscribe w m topic cb
               (.mqtt p.1, p.2)
  | .logging l => let p := LoggingQueueStrategy.subscribe l topic cb
                  (.logging p.1, p.2)

/-- Dispatch of `unsubscribe` across the three backends. -/
def Strat.unsubscribe (w : World) (s : Strat) (topic : String) : Strat × Bool :=
  match s with
  | .redis r => let p := RedisQueueStrategy.unsubscribe w r topic
                (.redis p.1, p.2)
  | .mqtt m => let p := MQTTQueueStrategy.unsubscribe w m topic
               (.mqtt p.1, p.2)
  | .logging l => let p := LoggingQueueStrategy.unsubscribe l topic
                  (.logging p.1, p.2)

/-- The manager's configuration dictionary, reduced to the fields the
manager reads: the enabled flag and the queue type tag (the backend-specific
parameters only feed the externally-modelled connections). -/
structure Config where
  enabled : Bool
  queue_type : String

/-- State of a `QueueManager`: its configuration, its optional strategy, and
its topic-to-callback-list subscriber registry. -/
structure MState where
  config : Config
  strategy : Option Strat
  subscribers : List (String × List Nat)

/-- One backend invocation made by the manager, recorded for the event
trace: a factory call, or a strategy-level connect / publish / subscribe /
unsubscribe.  Publish events carry the heap address of the payload
dictionary handed to the strategy. -/
inductive Event where
  | factoryCreate (queue_type : String)
  | stratConnect
  | stratPublish (topic : String) (dref : Nat)
  | stratSubscribe (topic : String) (cb : Nat)
  | stratUnsubscribe (topic : String)
deriving DecidableEq, BEq

/-- Result of a manager operation: new state, trace of backend invocations,
and the returned boolean. -/
structure MStep where
  st : MState
  evs : List Event
  ok : Bool

/-- Embeds `QueueManager.initialize`: nothing happens when disabled; when an
exception escapes strategy construction or connect (`w.initRaises`), the
manager falls back to a Logging strategy and returns False; otherwise the
factory builds the strategy selected by `queue_type` (anything other than
"redis" or "mqtt" gets the logging fallback, with a warning for unsupported
tags) and the result of `strategy.connect()` is returned.  The strategy
reference is assigned before connect runs, so it persists even when connect
fails. -/
def managerInit (w : World) (st : MState) : MStep :=
  if st.config.enabled = false then { st := st, evs := [], ok := false }
  else if w.initRaises then
    { st := { st with strategy := some (.logging freshLog) },
      evs := [.factoryCreate st.config.queue_type, .factoryCreate "logging"],
      ok := false }
  else if st.config.queue_type = "redis" then
    let c := RedisQueueStrategy.connect w freshRedis
    { st := { st with strategy := some (.redis c.1) },
      evs := [.factoryCreate "redis", .stratConnect], ok := c.2 }
  else if st.config.queue_type = "mqtt" then
    let c := MQTTQueueStrategy.connect w freshMqtt
    { st := { st with strategy := some (.mqtt c.1) },
      evs := [.factoryCreate "mqtt", .stratConnect], ok := c.2 }
  else
    { st := { st with strategy := some (.logging freshLog) },
      evs := [.factoryCreate "logging", .stratConnect], ok := true }

/-- Embeds `QueueManager(config)`: the constructor stores the configuration,
starts with no strategy and an empty registry, and eagerly runs
`initialize()`. -/
def mkManager (w : World) (cfg : Config) : MStep :=
  managerInit w { config := cfg, strategy := none, subscribers := [] }

/-- Whether the manager's strategy needs lazy re-initialization:
`self.strategy is None or not self.strategy.is_connected`. -/
def needsInit (w : World) (st : MState) : Bool :=
  match st.strategy with
  | none => true
  | some s => !(Strat.is_connected w s)

/-- Result of `QueueManager.publish`: new state, new heap, trace, result. -/
structure PubStep where
  st : MState
  heap : List Dict
  evs : List Event
  ok : Bool

/-- Embeds `QueueManager.publish(topic, data)`.  The payload dictionary is
the heap cell at address `dref`: the caller's own object.  Disabled managers
return False untouched; a missing or disconnected strategy triggers lazy
re-initialization, whose failure aborts with False; then a `timestamp` key
is assigned into the caller's dictionary only if absent, and the same
dictionary object is handed to `strategy.publish`. -/
def managerPublish (w : World) (st : MState) (heap : List Dict) (topic : String)
    (dref : Nat) : PubStep :=
  if st.config.enabled = false then { st := st, heap := heap, evs := [], ok := false }
  else
    let ini := if needsInit w st then managerInit w st
               else { st := st, evs := [], ok := true }
    if ini.ok = false then { st := ini.st, heap := heap, evs := ini.evs, ok := false }
    else
      let d := heap.getD dref []
      let heap2 := if hasKey d "timestamp" then heap
                   else heap.set dref (aset d "timestamp" (.jstr (strftimeYmdHMS w.time)))
      match ini.st.strategy with
      | none => { st := ini.st, heap := heap2, evs := ini.evs, ok := false }
      | some s =>
        let p := Strat.publish w s topic (heap2.getD dref [])
        { st := { ini.st with strategy := some p.1 }, heap := heap2,
          evs := ini.evs ++ [.stratPublish topic dref], ok := p.2 }

/-- Embeds `QueueManager.subscribe(topic, callback)`.  Disabled managers
return False; lazy re-initialization failure aborts with False; otherwise
the callback is appended to the topic's registry list only if not already
present, and `strategy.subscribe` is invoked unconditionally. -/
def managerSubscribe (w : World) (st : MState) (topic : String) (cb : Nat) : MStep :=
  if st.config.enabled = false then { st := st, evs := [], ok := false }
  else
    let ini := if needsInit w st then managerInit w st
               else { st := st, evs := [], ok := true }
    if ini.ok = false then { st := ini.st, evs := ini.evs, ok := false }
    else
      let subs0 := if hasKey ini.st.subscribers topic then ini.st.subscribers
                   else aset ini.st.subscribers topic []
      let cur := (alookup subs0 topic).getD []
      let subs1 := if cur.contains cb then subs0 else aset subs0 topic (cur ++ [cb])
      match ini.st.strategy with
      | none => { st := { ini.st with subscribers := subs1 }, evs := ini.evs, ok := false }
      | some s =>
        let p := Strat.subscribe w s topic cb
        { st := { ini.st with strategy := some p.1, subscribers := subs1 },
          evs := ini.evs ++ [.stratSubscribe topic cb], ok := p.2 }

/-- The full-unsubscribe path of `QueueManager.unsubscribe`: call
`strategy.unsubscribe(topic)` and, on success, drop the topic's registry
entry if it exists. -/
def managerFullUnsub (w : World) (st : MState) (s : Strat) (topic : String) : MStep :=
  let p := Strat.unsubscribe w s topic
  let subs := if p.2 && hasKey st.subscribers topic then adel st.subscribers topic
              else st.subscribers
  { st := { st with strategy := some p.1, subscribers := subs },
    evs := [.stratUnsubscribe topic], ok := p.2 }

/-- Embeds `QueueManager.unsubscribe(topic, callback)`.  Returns False when
the strategy is absent or not connected.  With a specific callback and a
registry entry for the topic, the callback is removed from the list; only
when the list becomes empty is the backend unsubscribe issued (and the entry
dropped on success).  With no callback (or no registry entry), the backend
unsubscribe is always issued. -/
def managerUnsubscribe (w : World) (st : MState) (topic : String)
    (cb : Option Nat) : MStep :=
  match st.strategy with
  | none => { st := st, evs := [], ok := false }
  | some s =>
    if Strat.is_connected w s = false then { st := st, evs := [], ok := false }
    else
      match cb with
      | some c =>
        if hasKey st.subscribers topic then
          let l := ((alookup st.subscribers topic).getD []).erase c
          let st1 := { st with subscribers := aset st.subscribers topic l }
          if l.isEmpty then
            let p := Strat.unsubscribe w s topic
            let subs := if p.2 then adel st1.subscribers topic else st1.subscribers
            { st := { st1 with strategy := some p.1, subscribers := subs },
              evs := [.stratUnsubscribe topic], ok := p.2 }
          else
            { st := st1, evs := [], ok := true }
        else managerFullUnsub w st s topic
      | none => managerFullUnsub w st s topic

theorem alookup_aset_self {α : Type} (l : List (String × α)) (k : String) (v : α) :
    alookup (aset l k v) k = some v := by
  induction l with
  | nil => simp [aset, alookup]
  | cons kv rest ih =>
    obtain ⟨k2, v2⟩ := kv
    by_cases h : k2 = k
    · simp [aset, alookup, h]
    · simp [aset, alookup, h, ih]

theorem alookup_aset_ne {α : Type} (l : List (String × α)) (k k' : String) (v : α)
    (h : k' ≠ k) : alookup (aset l k v) k' = alookup l k' := by
  induction l with
  | nil => simp [aset, alookup, Ne.symm h]
  | cons kv rest ih =>
    obtain ⟨k2, v2⟩ := kv
    by_cases h2 : k2 = k
    · subst h2
      simp [aset, alookup, Ne.symm h]
    · simp only [aset, if_neg h2, alookup]
      by_cases h3 : k2 = k'
      · simp [h3]
      · simp [h3, ih]

theorem aset_absent {α : Type} (l : List (String × α)) (k : String) (v : α)
    (h : hasKey l k = false) : aset l k v = l ++ [(k, v)] := by
  induction l with
  | nil => simp [aset]
  | cons kv rest ih =>
    obtain ⟨k2, v2⟩ := kv
    simp only [hasKey, alookup] at h
    by_cases h2 : k2 = k
    · simp [h2] at h
    · simp only [if_neg h2] at h
      simp [aset, h2, ih (by simpa [hasKey] using h)]

theorem adel_cons_eq {α : Type} (k : String) (v : α) (rest : List (String × α)) :
    adel ((k, v) :: rest) k = adel rest k := by
  simp [adel, List.filter_cons]

theorem adel_cons_ne {α : Type} (k k2 : String) (v : α) (rest : List (String × α))
    (h : k2 ≠ k) : adel ((k2, v) :: rest) k = (k2, v) :: adel rest k := by
  simp [adel, List.filter_cons, h]

theorem alookup_adel_self {α : Type} (l : List (String × α)) (k : String) :
    alookup (adel l k) k = none := by
  induction l with
  | nil => simp [adel, alookup]
  | cons kv rest ih =>
    obtain ⟨k2, v2⟩ := kv
    by_cases h : k2 = k
    · subst h
      rw [adel_cons_eq]
      exact ih
    · rw [adel_cons_ne _ _ _ _ h]
      simp only [alookup, if_neg h]
      exact ih

theorem alookup_adel_ne {α : Type} (l : List (String × α)) (k k' : String)
    (h : k' ≠ k) : alookup (adel l k) k' = alookup l k' := by
  induction l with
  | nil => simp [adel, alookup]
  | cons kv rest ih =>
    obtain ⟨k2, v2⟩ := kv
    by_cases h2 : k2 = k
    · subst h2
      rw [adel_cons_eq]
      simp only [alookup, if_neg (Ne.symm h)]
      exact ih
    · rw [adel_cons_ne _ _ _ _ h2]
      simp only [alookup]
      by_cases h3 : k2 = k'
      · simp [h3]
      · simp [h3, ih]

theorem getD_of_get? {α : Type} (l : List α) (n : Nat) (x d : α)
    (h : l.get? n = some x) : l.getD n d = x := by
  rw [List.getD_eq_getElem?_getD, ← List.get?_eq_getElem?, h]
  rfl

/-- Claim C1: publishing any topic and JSON-compatible payload through an
enabled Manager backed by the Logging strategy returns true; the payload
handed to the strategy (the caller's dictionary object, at heap address
`dref`) is the original payload if it already had a `timestamp` key, and
otherwise the payload extended with a `timestamp` key holding the
`YYYY-MM-DD HH:MM:SS` rendering of the current time. -/
theorem publish_logging_injects_timestamp (w : World) (st : MState)
    (heap : List Dict) (dref : Nat) (topic : String) (ls : LogState) (P : Dict)
    (hen : st.config.enabled = true)
    (hstrat : st.strategy = some (.logging ls))
    (hd : heap.get? dref = some P)
    (hy : w.time.year < 10000) (hmo : w.time.month < 100) (hdy : w.time.day < 100)
    (hh : w.time.hour < 100) (hmi : w.time.minute < 100) (hs : w.time.second < 100) :
    (managerPublish w st heap topic dref).ok = true ∧
    (managerPublish w st heap topic dref).evs = [.stratPublish topic dref] ∧
    (hasKey P "timestamp" = true →
      (managerPublish w st heap topic dref).heap.get? dref = some P) ∧
    (hasKey P "timestamp" = false →
      (managerPublish w st heap topic dref).heap.get? dref =
        some (P ++ [("timestamp", .jstr (strftimeYmdHMS w.time))])) ∧
    isTimestampFormat (strftimeYmdHMS w.time) = true := by
  have hconn : needsInit w st = false := by
    simp [needsInit, hstrat, Strat.is_connected]
  have hlt : dref < heap.length := List.get?_eq_some.mp hd |>.1
  have hd' : heap[dref]? = some P := by
    rw [← List.get?_eq_getElem?]
    exact hd
  by_cases hts : hasKey P "timestamp"
  · refine ⟨?_, ?_, ?_, ?_, strftime_format _ hy hmo hdy hh hmi hs⟩ <;>
      simp [managerPublish, hen, hconn, hstrat, hd', hts,
        Strat.publish, LoggingQueueStrategy.publish]
  · have hset : ∀ x : Dict, (heap.set dref x)[dref]? = some x := fun x =>
      List.getElem?_set_eq_of_lt x hlt
    refine ⟨?_, ?_, ?_, ?_, strftime_format _ hy hmo hdy hh hmi hs⟩ <;>
      simp [managerPublish, hen, hconn, hstrat, hd', hts, hset,
        aset_absent P "timestamp" _ (by simpa using hts),
        Strat.publish, LoggingQueueStrategy.publish]

/-- Witness for claim C1 at a concrete manager, heap, payload and time. -/
theorem publish_logging_injects_timestamp_witness :
    ((⟨⟨true, "logging"⟩, some (.logging freshLog), []⟩ : MState).config.enabled = true) ∧
    ((managerPublish
        ⟨⟨2026, 10, 12, 9, 30, 5⟩, true, "", false, true, true, "", [], 0, 0, 0⟩
        ⟨⟨true, "logging"⟩, some (.logging freshLog), []⟩
        [[("keyword", .jstr "hello")]] "results" 0).ok = true) := by
  refine ⟨rfl, ?_⟩
  have key := publish_logging_injects_timestamp
    ⟨⟨2026, 10, 12, 9, 30, 5⟩, true, "", false, true, true, "", [], 0, 0, 0⟩
    ⟨⟨true, "logging"⟩, some (.logging freshLog), []⟩
    [[("keyword", .jstr "hello")]] 0 "results" freshLog [("keyword", .jstr "hello")]
    rfl rfl rfl (by decide) (by decide) (by decide) (by decide) (by decide) (by decide)
  exact key.1

/-- Claim C6: a Manager configured with enabled=false performs no backend
invocation at all — the Strategy Factory is not called during the
construction-time initialize nor during publish/subscribe — and every
publish and subscribe call returns false. -/
theorem disabled_manager_inert (w w' : World) (cfg : Config) (st : MState)
    (heap : List Dict) (topic : String) (dref cb : Nat)
    (hcfg : cfg.enabled = false) (hst : st.config.enabled = false) :
    (mkManager w cfg).evs = [] ∧
    (mkManager w cfg).st.strategy = none ∧
    (managerPublish w' st heap topic dref).ok = false ∧
    (managerPublish w' st heap topic dref).evs = [] ∧
    (managerSubscribe w' st topic cb).ok = false ∧
    (managerSubscribe w' st topic cb).evs = [] := by
  refine ⟨?_, ?_, ?_, ?_, ?_, ?_⟩ <;>
    simp [mkManager, managerInit, managerPublish, managerSubscribe, hcfg, hst]

/-- Witness for claim C6 at a concrete disabled configuration. -/
theorem disabled_manager_inert_witness :
    ((⟨false, "redis"⟩ : Config).enabled = false) ∧
    (managerPublish
      ⟨⟨2026, 1, 1, 0, 0, 0⟩, true, "", false, true, true, "", [], 0, 0, 0⟩
      ⟨⟨false, "redis"⟩, none, []⟩ [] "results" 0).ok = false := by
  refine ⟨rfl, ?_⟩
  have key := disabled_manager_inert
    ⟨⟨2026, 1, 1, 0, 0, 0⟩, true, "", false, true, true, "", [], 0, 0, 0⟩
    ⟨⟨2026, 1, 1, 0, 0, 0⟩, true, "", false, true, true, "", [], 0, 0, 0⟩
    ⟨false, "redis"⟩ ⟨⟨false, "redis"⟩, none, []⟩ [] "results" 0 0 rfl rfl
  exact key.2.2.1

/-- Claim C2 counterexample: calling the factory with the string "redis" and
no keyword arguments raises TypeError (the RedisQueueStrategy constructor
requires `url`), so `create_strategy` does raise for some string inputs. -/
theorem create_strategy_redis_no_kwargs_raises :
    QueueStrategyFactory.create_strategy "redis" [] =
      .error "TypeError: RedisQueueStrategy arguments" := by
  rfl

/-- Claim C2 amended: for every string whose lowercase form is neither
"redis" nor "mqtt", a no-keyword-argument factory call never raises; and for
every string whose lowercase form is not one of redis/mqtt/logging, the
result is exactly the one produced by queue type "logging" (a fresh
LoggingQueueStrategy). -/
theorem create_strategy_fallback (s : String)
    (h1 : pyLower s ≠ "redis") (h2 : pyLower s ≠ "mqtt") :
    (∃ r, QueueStrategyFactory.create_strategy s [] = .ok r) ∧
    (pyLower s ≠ "logging" →
      QueueStrategyFactory.create_strategy s [] =
        QueueStrategyFactory.create_strategy "logging" []) := by
  constructor
  · unfold QueueStrategyFactory.create_strategy
    rw [if_neg h1, if_neg h2]
    by_cases h3 : pyLower s = "logging" <;> simp [h3, loggingInitOk]
  · intro h3
    unfold QueueStrategyFactory.create_strategy
    rw [if_neg h1, if_neg h2, if_neg h3]
    rfl

/-- Witness for the amended claim C2 at the concrete string "INVALID". -/
theorem create_strategy_fallback_witness :
    (pyLower "INVALID" ≠ "redis" ∧ pyLower "INVALID" ≠ "mqtt" ∧
      pyLower "INVALID" ≠ "logging") ∧
    QueueStrategyFactory.create_strategy "INVALID" [] =
      QueueStrategyFactory.create_strategy "logging" [] := by
  refine ⟨⟨by decide, by decide, by decide⟩, ?_⟩
  exact (create_strategy_fallback "INVALID" (by decide) (by decide)).2 (by decide)

/-- Claim C10: when the Manager injects a timestamp during publish, it
mutates the caller's own dictionary object (the heap cell at `dref`) in
place: no new heap cell is allocated, every other heap cell is untouched,
the strategy is handed the very address the caller passed, and every key of
the caller's dictionary other than `timestamp` keeps its value. -/
theorem publish_mutates_caller_dict (w : World) (st : MState) (heap : List Dict)
    (dref : Nat) (topic : String) (s : Strat) (P : Dict)
    (hen : st.config.enabled = true) (hstrat : st.strategy = some s)
    (hconn : Strat.is_connected w s = true)
    (hd : heap.get? dref = some P) :
    (managerPublish w st heap topic dref).heap.length = heap.length ∧
    (∀ j, j ≠ dref → (managerPublish w st heap topic dref).heap.get? j = heap.get? j) ∧
    (managerPublish w st heap topic dref).evs = [.stratPublish topic dref] ∧
    (∀ k, k ≠ "timestamp" →
      alookup ((managerPublish w st heap topic dref).heap.getD dref []) k = alookup P k) := by
  have hconn2 : needsInit w st = false := by simp [needsInit, hstrat, hconn]
  have hlt : dref < heap.length := List.get?_eq_some.mp hd |>.1
  have hd' : heap[dref]? = some P := by
    rw [← List.get?_eq_getElem?]
    exact hd
  by_cases hts : hasKey P "timestamp"
  · refine ⟨?_, ?_, ?_, ?_⟩ <;>
      simp [managerPublish, hen, hconn2, hstrat, hd', hts]
  · have hset : ∀ x : Dict, (heap.set dref x)[dref]? = some x := fun x =>
      List.getElem?_set_eq_of_lt x hlt
    refine ⟨?_, ?_, ?_, ?_⟩
    · simp [managerPublish, hen, hconn2, hstrat, hd', hts]
    · intro j hj
      have hne : ∀ x : Dict, (heap.set dref x)[j]? = heap[j]? := fun x =>
        List.getElem?_set_ne (fun e => hj e.symm)
      simp [managerPublish, hen, hconn2, hstrat, hd', hts, hne]
    · simp [managerPublish, hen, hconn2, hstrat, hd', hts]
    · intro k hk
      simp [managerPublish, hen, hconn2, hstrat, hd', hts, hset,
        alookup_aset_ne _ _ _ _ hk]

/-- Witness for claim C10 at a concrete manager, heap and payload. -/
theorem publish_mutates_caller_dict_witness :
    ((⟨⟨true, "logging"⟩, some (.logging freshLog), []⟩ : MState).config.enabled = true) ∧
    (managerPublish
        ⟨⟨2026, 10, 12, 9, 30, 5⟩, true, "", false, true, true, "", [], 0, 0, 0⟩
        ⟨⟨true, "logging"⟩, some (.logging freshLog), []⟩
        [[("keyword", .jstr "hello")]] "results" 0).evs =
      [.stratPublish "results" 0] := by
  refine ⟨rfl, ?_⟩
  have key := publish_mutates_caller_dict
    ⟨⟨2026, 10, 12, 9, 30, 5⟩, true, "", false, true, true, "", [], 0, 0, 0⟩
    ⟨⟨true, "logging"⟩, some (.logging freshLog), []⟩
    [[("keyword", .jstr "hello")]] 0 "results" (.logging freshLog)
    [("keyword", .jstr "hello")] rfl rfl rfl rfl
  exact key.2.2.1

/-- Claim C3 counterexample: an enabled redis-configured Manager with no
strategy, against an unreachable Redis server (re-initialization fails
without an exception): the publish call returns false — not true as the
claim states — and the strategy is the failed Redis one, not a Logging
fallback. -/
theorem reinit_failure_claim_false :
    (managerPublish
        ⟨⟨2026, 1, 1, 0, 0, 0⟩, false, "connection refused", false, true, true, "", [], 0, 0, 0⟩
        ⟨⟨true, "redis"⟩, none, []⟩ [] "results" 0).ok = false ∧
    ((match (managerPublish
        ⟨⟨2026, 1, 1, 0, 0, 0⟩, false, "connection refused", false, true, true, "", [], 0, 0, 0⟩
        ⟨⟨true, "redis"⟩, none, []⟩ [] "results" 0).st.strategy with
      | some (.logging _) => true
      | _ => false) = false) := by
  constructor
  · rfl
  · rfl

/-- Claim C3 amended: when a publish or subscribe on an enabled Manager
triggers lazy re-initialization and the re-initialization fails, the
triggering call returns false (not true).  The strategy is replaced with a
Logging strategy only in the case where an exception escapes strategy
construction or connect; in that case the next publish on the resulting
state succeeds through the Logging strategy (logged, not delivered). -/
theorem reinit_failure_behavior (w : World) (st : MState) (heap : List Dict)
    (topic : String) (dref cb : Nat)
    (hen : st.config.enabled = true)
    (hneed : needsInit w st = true) :
    ((managerInit w st).ok = false →
      (managerPublish w st heap topic dref).ok = false ∧
      (managerSubscribe w st topic cb).ok = false) ∧
    (w.initRaises = true →
      (managerPublish w st heap topic dref).st.strategy = some (.logging freshLog) ∧
      (managerPublish w (managerPublish w st heap topic dref).st heap topic dref).ok = true) := by
  constructor
  · intro hfail
    constructor <;> simp [managerPublish, managerSubscribe, hen, hneed, hfail]
  · intro hraise
    have hini : managerInit w st =
        { st := { st with strategy := some (.logging freshLog) },
          evs := [.factoryCreate st.config.queue_type, .factoryCreate "logging"],
          ok := false } := by
      simp [managerInit, hen, hraise]
    have hst1 : (managerPublish w st heap topic dref).st =
        { st with strategy := some (.logging freshLog) } := by
      simp [managerPublish, hen, hneed, hini]
    refine ⟨by rw [hst1], ?_⟩
    rw [hst1]
    have hconn : needsInit w { st with strategy := some (.logging freshLog) } = false := by
      simp [needsInit, Strat.is_connected]
    by_cases hts : hasKey (heap.getD dref []) "timestamp" = true <;>
      simp [managerPublish, hen, hconn, hts, Strat.publish, LoggingQueueStrategy.publish]

/-- Witness for the amended claim C3: an enabled mqtt-configured Manager
whose re-initialization raises (malformed keyword arguments). -/
theorem reinit_failure_behavior_witness :
    ((⟨⟨true, "mqtt"⟩, none, []⟩ : MState).config.enabled = true ∧
      needsInit ⟨⟨2026, 1, 1, 0, 0, 0⟩, true, "", true, true, true, "", [], 0, 0, 0⟩
        ⟨⟨true, "mqtt"⟩, none, []⟩ = true ∧
      (⟨⟨2026, 1, 1, 0, 0, 0⟩, true, "", true, true, true, "", [], 0, 0, 0⟩ : World).initRaises = true) ∧
    (managerPublish ⟨⟨2026, 1, 1, 0, 0, 0⟩, true, "", true, true, true, "", [], 0, 0, 0⟩
        ⟨⟨true, "mqtt"⟩, none, []⟩ [] "results" 0).st.strategy = some (.logging freshLog) := by
  refine ⟨⟨rfl, rfl, rfl⟩, ?_⟩
  have key := reinit_failure_behavior
    ⟨⟨2026, 1, 1, 0, 0, 0⟩, true, "", true, true, true, "", [], 0, 0, 0⟩
    ⟨⟨true, "mqtt"⟩, none, []⟩ [] "results" 0 0 rfl rfl
  exact (key.2 rfl).1

theorem strat_subscribe_keeps_connected (w : World) (s : Strat) (topic : String)
    (cb : Nat) (h : Strat.is_connected w s = true) :
    Strat.is_connected w (Strat.subscribe w s topic cb).1 = true := by
  cases s with
  | logging l =>
    simp [Strat.subscribe, LoggingQueueStrategy.subscribe, Strat.is_connected]
  | redis r =>
    simp only [Strat.is_connected, RedisQueueStrategy.is_connected,
      Bool.and_eq_true] at h
    by_cases ht : topic ∈ r.subscription_threads <;>
      simp [Strat.subscribe, RedisQueueStrategy.subscribe, Strat.is_connected,
        RedisQueueStrategy.is_connected, h.1, h.2, ht]
  | mqtt m =>
    simp only [Strat.is_connected, MQTTQueueStrategy.is_connected,
      Bool.and_eq_true] at h
    simp [Strat.subscribe, MQTTQueueStrategy.subscribe, Strat.is_connected,
      MQTTQueueStrategy.is_connected, h.1, h.2]

/-- The registry transformation performed by `QueueManager.subscribe`:
ensure the topic's list exists, then append the callback only if absent. -/
def subsAfter (subs : List (String × List Nat)) (topic : String) (cb : Nat) :
    List (String × List Nat) :=
  let subs0 := if hasKey subs topic then subs else aset subs topic []
  let cur := (alookup subs0 topic).getD []
  if cur.contains cb then subs0 else aset subs0 topic (cur ++ [cb])

theorem managerSubscribe_connected (w : World) (st : MState) (topic : String)
    (cb : Nat) (s : Strat) (hen : st.config.enabled = true)
    (hstrat : st.strategy = some s) (hconn : Strat.is_connected w s = true) :
    managerSubscribe w st topic cb =
      { st := { st with strategy := some (Strat.subscribe w s topic cb).1,
                        subscribers := subsAfter st.subscribers topic cb },
        evs := [.stratSubscribe topic cb],
        ok := (Strat.subscribe w s topic cb).2 } := by
  have hneed : needsInit w st = false := by simp [needsInit, hstrat, hconn]
  simp [managerSubscribe, hen, hneed, hstrat, subsAfter]

theorem subsAfter_lookup_new (subs : List (String × List Nat)) (topic : String)
    (cb : Nat) (hnew : ((alookup subs topic).getD []).contains cb = false) :
    alookup (subsAfter subs topic cb) topic =
      some ((alookup subs topic).getD [] ++ [cb]) := by
  by_cases hk : hasKey subs topic
  · simp only [subsAfter, hk, if_true, hnew, if_false]
    exact alookup_aset_self _ _ _
  · have hl : alookup subs topic = none := by
      simpa [hasKey, Option.not_isSome_iff_eq_none] using hk
    simp only [subsAfter, hk, Bool.false_eq_true, if_false, hl,
      alookup_aset_self, Option.getD_some, Option.getD_none]
    simp [alookup_aset_self]

theorem subsAfter_mem (subs : List (String × List Nat)) (topic : String)
    (cb : Nat) (h : ((alookup subs topic).getD []).contains cb = true) :
    subsAfter subs topic cb = subs := by
  have hk : hasKey subs topic = true := by
    cases hl : alookup subs topic with
    | none => rw [hl] at h; simp at h
    | some l => simp [hasKey, hl]
  have hmem : cb ∈ (alookup subs topic).getD [] := by simpa using h
  simp [subsAfter, hk, hmem]

/-- Claim C4 amended: subscribing the same callback to the same topic twice
in succession on a connected enabled Manager yields exactly one registry
entry for the pair, and the second call is a no-op with respect to the
registry; but the backend strategy-level subscribe is invoked on each of the
two calls (one event per call, two in total), not exactly once. -/
theorem subscribe_twice_dedups_registry_only (w : World) (st : MState)
    (topic : String) (cb : Nat) (s : Strat)
    (hen : st.config.enabled = true) (hstrat : st.strategy = some s)
    (hconn : Strat.is_connected w s = true)
    (hnew : ((alookup st.subscribers topic).getD []).contains cb = false) :
    (managerSubscribe w st topic cb).evs = [.stratSubscribe topic cb] ∧
    (managerSubscribe w (managerSubscribe w st topic cb).st topic cb).evs =
      [.stratSubscribe topic cb] ∧
    alookup (managerSubscribe w st topic cb).st.subscribers topic =
      some ((alookup st.subscribers topic).getD [] ++ [cb]) ∧
    ((alookup (managerSubscribe w st topic cb).st.subscribers topic).getD []).count cb = 1 ∧
    (managerSubscribe w (managerSubscribe w st topic cb).st topic cb).st.subscribers =
      (managerSubscribe w st topic cb).st.subscribers := by
  have h1 := managerSubscribe_connected w st topic cb s hen hstrat hconn
  have hconn2 : Strat.is_connected w (Strat.subscribe w s topic cb).1 = true :=
    strat_subscribe_keeps_connected w s topic cb hconn
  have hlook := subsAfter_lookup_new st.subscribers topic cb hnew
  have h2 := managerSubscribe_connected w (managerSubscribe w st topic cb).st topic cb
    (Strat.subscribe w s topic cb).1 (by rw [h1]; exact hen) (by rw [h1]) hconn2
  have hmem2 : ((alookup (managerSubscribe w st topic cb).st.subscribers topic).getD
      []).contains cb = true := by
    rw [h1]
    simp only [hlook, Option.getD_some]
    simp
  have hnotmem : cb ∉ (alookup st.subscribers topic).getD [] := by
    simpa using hnew
  refine ⟨by rw [h1], by rw [h2], by rw [h1]; exact hlook, ?_, ?_⟩
  · rw [h1]
    simp only [hlook, Option.getD_some, List.count_append]
    rw [List.count_eq_zero.mpr hnotmem]
    simp
  · rw [h2, h1]
    simp only
    rw [subsAfter_mem _ _ _ (by rw [h1] at hmem2; exact hmem2)]

/-- Claim C4 counterexample: on a concrete connected Logging-backed Manager,
two successive subscribe calls with the same callback produce two
strategy-level subscribe invocations, not exactly one. -/
theorem subscribe_twice_two_backend_calls :
    ((managerSubscribe
          ⟨⟨2026, 1, 1, 0, 0, 0⟩, true, "", false, true, true, "", [], 0, 0, 0⟩
          ⟨⟨true, "logging"⟩, some (.logging freshLog), []⟩ "alerts" 7).evs ++
      (managerSubscribe
          ⟨⟨2026, 1, 1, 0, 0, 0⟩, true, "", false, true, true, "", [], 0, 0, 0⟩
          (managerSubscribe
            ⟨⟨2026, 1, 1, 0, 0, 0⟩, true, "", false, true, true, "", [], 0, 0, 0⟩
            ⟨⟨true, "logging"⟩, some (.logging freshLog), []⟩ "alerts" 7).st
          "alerts" 7).evs).count (.stratSubscribe "alerts" 7) = 2 ∧
    ¬ ((managerSubscribe
          ⟨⟨2026, 1, 1, 0, 0, 0⟩, true, "", false, true, true, "", [], 0, 0, 0⟩
          ⟨⟨true, "logging"⟩, some (.logging freshLog), []⟩ "alerts" 7).evs ++
      (managerSubscribe
          ⟨⟨2026, 1, 1, 0, 0, 0⟩, true, "", false, true, true, "", [], 0, 0, 0⟩
          (managerSubscribe
            ⟨⟨2026, 1, 1, 0, 0, 0⟩, true, "", false, true, true, "", [], 0, 0, 0⟩
            ⟨⟨true, "logging"⟩, some (.logging freshLog), []⟩ "alerts" 7).st
          "alerts" 7).evs).count (.stratSubscribe "alerts" 7) = 1 := by
  constructor
  · rfl
  · decide

/-- Claim C5: on a connected Manager with callbacks [c1, c2] registered for
a topic, unsubscribing c1 removes it from the registry without any backend
unsubscribe call and returns true; then unsubscribing c2 (the last
callback), or calling unsubscribe with the callback omitted, issues exactly
one backend unsubscribe call and (when that backend call succeeds) removes
the topic's registry entry. -/
theorem unsubscribe_callback_granularity (w : World) (st : MState)
    (topic : String) (c1 c2 : Nat) (s : Strat)
    (hstrat : st.strategy = some s) (hconn : Strat.is_connected w s = true)
    (hsubs : alookup st.subscribers topic = some [c1, c2])
    (hok : (Strat.unsubscribe w s topic).2 = true) :
    (managerUnsubscribe w st topic (some c1)).ok = true ∧
    (managerUnsubscribe w st topic (some c1)).evs = [] ∧
    alookup (managerUnsubscribe w st topic (some c1)).st.subscribers topic = some [c2] ∧
    (managerUnsubscribe w (managerUnsubscribe w st topic (some c1)).st topic
        (some c2)).evs = [.stratUnsubscribe topic] ∧
    (managerUnsubscribe w (managerUnsubscribe w st topic (some c1)).st topic
        (some c2)).ok = true ∧
    hasKey (managerUnsubscribe w (managerUnsubscribe w st topic (some c1)).st topic
        (some c2)).st.subscribers topic = false ∧
    (managerUnsubscribe w st topic none).evs = [.stratUnsubscribe topic] ∧
    hasKey (managerUnsubscribe w st topic none).st.subscribers topic = false := by
  have hk : hasKey st.subscribers topic = true := by simp [hasKey, hsubs]
  have herase : [c1, c2].erase c1 = [c2] := by simp
  have h1 : managerUnsubscribe w st topic (some c1) =
      { st := { st with subscribers := aset st.subscribers topic [c2] },
        evs := [], ok := true } := by
    simp [managerUnsubscribe, hstrat, hconn, hk, hsubs, herase]
  have hlook2 : alookup (aset st.subscribers topic [c2]) topic = some [c2] :=
    alookup_aset_self _ _ _
  have hk2 : hasKey (aset st.subscribers topic [c2]) topic = true := by
    simp [hasKey, hlook2]
  refine ⟨by rw [h1], by rw [h1], by rw [h1]; exact hlook2, ?_, ?_, ?_, ?_, ?_⟩
  · rw [h1]
    simp [managerUnsubscribe, hstrat, hconn, hk2, hlook2]
  · rw [h1]
    simp [managerUnsubscribe, hstrat, hconn, hk2, hlook2, hok]
  · rw [h1]
    simp [managerUnsubscribe, hstrat, hconn, hk2, hlook2, hok, hasKey,
      alookup_adel_self]
  · simp [managerUnsubscribe, managerFullUnsub, hstrat, hconn]
  · simp [managerUnsubscribe, managerFullUnsub, hstrat, hconn, hok, hsubs, hasKey,
      alookup_adel_self]

/-- Witness for claim C5 on a concrete connected Logging-backed Manager with
two callbacks registered for one topic. -/
theorem unsubscribe_callback_granularity_witness :
    (alookup ([("alerts", [4, 9])] : List (String × List Nat)) "alerts" = some [4, 9] ∧
      (Strat.unsubscribe
        ⟨⟨2026, 1, 1, 0, 0, 0⟩, true, "", false, true, true, "", [], 0, 0, 0⟩
        (.logging freshLog) "alerts").2 = true) ∧
    (managerUnsubscribe
        ⟨⟨2026, 1, 1, 0, 0, 0⟩, true, "", false, true, true, "", [], 0, 0, 0⟩
        ⟨⟨true, "logging"⟩, some (.logging freshLog), [("alerts", [4, 9])]⟩
        "alerts" (some 4)).evs = [] := by
  refine ⟨⟨rfl, rfl⟩, ?_⟩
  have key := unsubscribe_callback_granularity
    ⟨⟨2026, 1, 1, 0, 0, 0⟩, true, "", false, true, true, "", [], 0, 0, 0⟩
    ⟨⟨true, "logging"⟩, some (.logging freshLog), [("alerts", [4, 9])]⟩
    "alerts" 4 9 (.logging freshLog) rfl rfl rfl rfl
  exact key.2.1

/-- Witness for the amended claim C4 on a concrete connected Logging-backed
Manager. -/
theorem subscribe_twice_dedups_registry_only_witness :
    ((⟨⟨true, "logging"⟩, some (.logging freshLog), []⟩ : MState).config.enabled = true ∧
      ((alookup ([] : List (String × List Nat)) "alerts").getD []).contains 7 = false) ∧
    alookup (managerSubscribe
        ⟨⟨2026, 1, 1, 0, 0, 0⟩, true, "", false, true, true, "", [], 0, 0, 0⟩
        ⟨⟨true, "logging"⟩, some (.logging freshLog), []⟩ "alerts" 7).st.subscribers
      "alerts" = some [7] := by
  refine ⟨⟨rfl, rfl⟩, ?_⟩
  have key := subscribe_twice_dedups_registry_only
    ⟨⟨2026, 1, 1, 0, 0, 0⟩, true, "", false, true, true, "", [], 0, 0, 0⟩
    ⟨⟨true, "logging"⟩, some (.logging freshLog), []⟩ "alerts" 7 (.logging freshLog)
    rfl rfl rfl rfl
  exact key.2.2.1

theorem take_append_take (n : Nat) (xs ys : List String) :
    (xs ++ ys.take n).take n = (xs ++ ys).take n := by
  rw [List.take_append_eq_append_take, List.take_append_eq_append_take,
    List.take_take, Nat.min_eq_left (Nat.sub_le n xs.length)]

/-- Fold of `RedisQueueStrategy.publish` over a sequence of payloads,
keeping only the evolving strategy state. -/
def redisPublishSeq (w : World) (st : RedisState) (topic : String)
    (ps : List Dict) : RedisState :=
  ps.foldl (fun s p => (RedisQueueStrategy.publish w s topic p).1) st

/-- The Redis server's history list for a topic, as recorded in the
strategy-reachable store. -/
def redisHistory (st : RedisState) (topic : String) : List String :=
  (alookup st.store ("history:" ++ topic)).getD []

theorem sdata_append (a b : String) : (a ++ b).data = a.data ++ b.data := rfl

theorem string_append_left_cancel (a b c : String) (h : a ++ b = a ++ c) : b = c := by
  have hd := congrArg String.data h
  rw [sdata_append, sdata_append] at hd
  have hbc := List.append_cancel_left hd
  cases b
  cases c
  exact congrArg String.mk hbc

theorem redis_publish_step (w : World) (st : RedisState) (topic : String)
    (p : Dict) (hc : st.redis_client = true) (hup : w.redisUp = true) :
    (RedisQueueStrategy.publish w st topic p).2 = true ∧
    (RedisQueueStrategy.publish w st topic p).1.redis_client = true ∧
    redisHistory (RedisQueueStrategy.publish w st topic p).1 topic =
      (dumps p :: redisHistory st topic).take 100 ∧
    (∀ t2, t2 ≠ topic →
      redisHistory (RedisQueueStrategy.publish w st topic p).1 t2 =
        redisHistory st t2) := by
  refine ⟨?_, ?_, ?_, ?_⟩
  · simp [RedisQueueStrategy.publish, hc, hup]
  · simp [RedisQueueStrategy.publish, hc, hup]
  · simp [RedisQueueStrategy.publish, hc, hup, redisHistory, alookup_aset_self]
  · intro t2 ht2
    have hne : ("history:" ++ t2 : String) ≠ "history:" ++ topic := by
      intro he
      exact ht2 (string_append_left_cancel _ _ _ he)
    simp [RedisQueueStrategy.publish, hc, hup, redisHistory,
      alookup_aset_ne _ _ _ _ hne]

theorem redisPublishSeq_history (w : World) (topic : String) (ps : List Dict) :
    ∀ st : RedisState, st.redis_client = true → w.redisUp = true →
      (redisHistory st topic).length ≤ 100 →
      (redisPublishSeq w st topic ps).redis_client = true ∧
      redisHistory (redisPublishSeq w st topic ps) topic =
        ((ps.map dumps).reverse ++ redisHistory st topic).take 100 := by
  induction ps with
  | nil =>
    intro st hc _ hlen
    refine ⟨hc, ?_⟩
    simp [redisPublishSeq, List.take_of_length_le hlen]
  | cons p ps ih =>
    intro st hc hup _
    have step := redis_publish_step w st topic p hc hup
    have hseq : redisPublishSeq w st topic (p :: ps) =
        redisPublishSeq w (RedisQueueStrategy.publish w st topic p).1 topic ps := by
      simp [redisPublishSeq]
    rw [hseq]
    have hlen2 : (redisHistory (RedisQueueStrategy.publish w st topic p).1 topic).length ≤ 100 := by
      rw [step.2.2.1]
      exact List.length_take_le _ _
    have key := ih (RedisQueueStrategy.publish w st topic p).1 step.2.1 hup hlen2
    refine ⟨key.1, ?_⟩
    rw [key.2, step.2.2.1, take_append_take]
    simp

/-- Claim C7: starting from an empty history, N > 100 successful publishes
to a topic on a connected Redis strategy (lpush-then-ltrim on key
`history:<topic>`) leave exactly 100 entries, ordered most-recent-first,
equal to the serialized forms of the last 100 published payloads; every
publish in the sequence succeeds, and after any prefix of the sequence the
list holds at most 100 entries. -/
theorem redis_history_last_100 (w : World) (st : RedisState) (topic : String)
    (ps : List Dict) (hc : st.redis_client = true) (hup : w.redisUp = true)
    (hinit : redisHistory st topic = []) (hlen : 100 < ps.length) :
    redisHistory (redisPublishSeq w st topic ps) topic =
      ((ps.map dumps).reverse).take 100 ∧
    (redisHistory (redisPublishSeq w st topic ps) topic).length = 100 ∧
    (∀ qs p ls, ps = qs ++ p :: ls →
      (RedisQueueStrategy.publish w (redisPublishSeq w st topic qs) topic p).2 = true) ∧
    (∀ qs ls, ps = qs ++ ls →
      (redisHistory (redisPublishSeq w st topic qs) topic).length ≤ 100) := by
  have hinitlen : (redisHistory st topic).length ≤ 100 := by rw [hinit]; simp
  have main := redisPublishSeq_history w topic ps st hc hup hinitlen
  have h1 : redisHistory (redisPublishSeq w st topic ps) topic =
      ((ps.map dumps).reverse).take 100 := by
    rw [main.2, hinit]
    simp
  refine ⟨h1, ?_, ?_, ?_⟩
  · rw [h1, List.length_take, List.length_reverse, List.length_map,
      Nat.min_eq_left (Nat.le_of_lt hlen)]
  · intro qs p ls _
    have mq := redisPublishSeq_history w topic qs st hc hup hinitlen
    exact (redis_publish_step w _ topic p mq.1 hup).1
  · intro qs ls _
    have mq := redisPublishSeq_history w topic qs st hc hup hinitlen
    rw [mq.2]
    exact List.length_take_le _ _

/-- Witness for claim C7: 101 publishes of a concrete payload against a
connected Redis strategy with an empty store. -/
theorem redis_history_last_100_witness :
    (({ freshRedis with redis_client := true, pubsub := true } : RedisState).redis_client = true ∧
      redisHistory { freshRedis with redis_client := true, pubsub := true } "results" = [] ∧
      100 < (List.replicate 101 ([("k", JVal.jstr "v")] : Dict)).length) ∧
    (redisHistory
        (redisPublishSeq
          ⟨⟨2026, 1, 1, 0, 0, 0⟩, true, "", false, true, true, "", [], 0, 0, 0⟩
          { freshRedis with redis_client := true, pubsub := true } "results"
          (List.replicate 101 ([("k", JVal.jstr "v")] : Dict)))
        "results").length = 100 := by
  refine ⟨⟨rfl, rfl, by decide⟩, ?_⟩
  have key := redis_history_last_100
    ⟨⟨2026, 1, 1, 0, 0, 0⟩, true, "", false, true, true, "", [], 0, 0, 0⟩
    { freshRedis with redis_client := true, pubsub := true } "results"
    (List.replicate 101 ([("k", JVal.jstr "v")] : Dict)) rfl rfl rfl (by decide)
  exact key.2.1

/-- Claim C8: when the paho library is importable, the client connect call
goes through, and the on-connect handler is never invoked with a success
code during the five-second wait (no code 0 among the delivered result
codes), `MQTTQueueStrategy.connect` returns false and leaves the status
equal to the exact string "error: connection timeout".  (The hypotheses on
the starting state pin it to the reachable not-yet-connected shape; the
five-second bound itself is wall-clock time, outside the embedding.) -/
theorem mqtt_connect_timeout (w : World) (st : MqttState)
    (himp : w.mqttImportOk = true) (hcall : w.mqttConnectCallOk = true)
    (hnosucc : w.mqttConfirms.contains 0 = false)
    (hnc : st._connected = false) (hns : st._status ≠ "connected") :
    (MQTTQueueStrategy.connect w st).2 = false ∧
    (MQTTQueueStrategy.connect w st).1._status = "error: connection timeout" := by
  have hnomem : 0 ∉ w.mqttConfirms := by simpa using hnosucc
  constructor <;>
    simp [MQTTQueueStrategy.connect, MQTTQueueStrategy.is_connected,
      himp, hcall, hnomem, hnc, hns]

/-- Witness for claim C8: a fresh MQTT strategy against a broker that never
confirms the connection. -/
theorem mqtt_connect_timeout_witness :
    ((⟨⟨2026, 1, 1, 0, 0, 0⟩, true, "", false, true, true, "", [], 0, 0, 0⟩ : World).mqttConfirms.contains 0 = false ∧
      freshMqtt._connected = false ∧ freshMqtt._status ≠ "connected") ∧
    (MQTTQueueStrategy.connect
        ⟨⟨2026, 1, 1, 0, 0, 0⟩, true, "", false, true, true, "", [], 0, 0, 0⟩
        freshMqtt).1._status = "error: connection timeout" := by
  refine ⟨⟨rfl, rfl, by decide⟩, ?_⟩
  have key := mqtt_connect_timeout
    ⟨⟨2026, 1, 1, 0, 0, 0⟩, true, "", false, true, true, "", [], 0, 0, 0⟩
    freshMqtt rfl rfl rfl rfl (by decide)
  exact key.2

theorem aset_keys {α : Type} (l : List (String × α)) (k : String) (v : α) :
    (aset l k v).map Prod.fst =
      if hasKey l k then l.map Prod.fst else l.map Prod.fst ++ [k] := by
  induction l with
  | nil => simp [aset, hasKey, alookup]
  | cons kv rest ih =>
    obtain ⟨k2, v2⟩ := kv
    by_cases h2 : k2 = k
    · simp [aset, hasKey, alookup, h2]
    · have hhk : hasKey ((k2, v2) :: rest) k = hasKey rest k := by
        simp [hasKey, alookup, h2]
      rw [hhk]
      simp only [aset, if_neg h2, List.map_cons, ih]
      by_cases hk : hasKey rest k <;> simp [hk]

theorem alookup_none_not_mem {α : Type} (l : List (String × α)) (k : String)
    (h : alookup l k = none) : k ∉ l.map Prod.fst := by
  induction l with
  | nil => simp
  | cons kv rest ih =>
    obtain ⟨k2, v2⟩ := kv
    simp only [alookup] at h
    by_cases h2 : k2 = k
    · simp [h2] at h
    · simp only [if_neg h2] at h
      simp only [List.map_cons, List.mem_cons]
      rintro (he | hm)
      · exact h2 he.symm
      · exact ih h hm

theorem aset_keys_nodup {α : Type} (l : List (String × α)) (k : String) (v : α)
    (h : (l.map Prod.fst).Nodup) : ((aset l k v).map Prod.fst).Nodup := by
  rw [aset_keys]
  by_cases hk : hasKey l k
  · simpa [hk] using h
  · have hnm : k ∉ l.map Prod.fst := by
      apply alookup_none_not_mem
      simpa [hasKey, Option.not_isSome_iff_eq_none] using hk
    simp [hk, List.nodup_append, h, hnm]

theorem redis_subscribe_callbacks (w : World) (r : RedisState) (topic : String)
    (cb : Nat) (hc : r.redis_client = true) (hup : w.redisUp = true) :
    (RedisQueueStrategy.subscribe w r topic cb).1.callbacks = aset r.callbacks topic cb ∧
    (RedisQueueStrategy.subscribe w r topic cb).1.redis_client = true := by
  by_cases ht : topic ∈ r.subscription_threads <;>
    simp [RedisQueueStrategy.subscribe, hc, hup, ht]

theorem mqtt_subscribe_callbacks (w : World) (m : MqttState) (topic : String)
    (cb : Nat) (hm : MQTTQueueStrategy.is_connected m = true) :
    (MQTTQueueStrategy.subscribe w m topic cb).1.callbacks = aset m.callbacks topic cb ∧
    MQTTQueueStrategy.is_connected (MQTTQueueStrategy.subscribe w m topic cb).1 = true := by
  constructor <;>
    simp [MQTTQueueStrategy.subscribe, MQTTQueueStrategy.is_connected, hm] <;>
    simp only [MQTTQueueStrategy.is_connected, Bool.and_eq_true] at hm <;>
    simp [hm.1, hm.2]

/-- Claim C9: the Redis and MQTT strategy-level callback tables hold at most
one callback per topic — a second strategy-level subscribe to the same topic
overwrites the stored callback — so an incoming message dispatches only to
the most recently registered callback, even while the Manager's registry
holds both distinct callbacks for the topic.  Stated on a Redis-backed
Manager taken through two Manager-level subscribes, and on the MQTT strategy
taken through two strategy-level subscribes. -/
theorem strategy_table_overwrites (w : World) (st : MState) (topic : String)
    (c1 c2 : Nat) (r : RedisState) (m : MqttState)
    (hen : st.config.enabled = true)
    (hstrat : st.strategy = some (.redis r))
    (hc : r.redis_client = true) (hup : w.redisUp = true)
    (hreg : alookup st.subscribers topic = none)
    (hnodup : (r.callbacks.map Prod.fst).Nodup)
    (hmconn : MQTTQueueStrategy.is_connected m = true)
    (hne : c1 ≠ c2) :
    alookup (managerSubscribe w (managerSubscribe w st topic c1).st topic
        c2).st.subscribers topic = some [c1, c2] ∧
    (∃ r2 : RedisState,
      (managerSubscribe w (managerSubscribe w st topic c1).st topic
          c2).st.strategy = some (.redis r2) ∧
      RedisQueueStrategy.dispatchTarget r2 topic = some c2 ∧
      (r2.callbacks.map Prod.fst).Nodup) ∧
    MQTTQueueStrategy.dispatchTarget
      (MQTTQueueStrategy.subscribe w (MQTTQueueStrategy.subscribe w m topic
        c1).1 topic c2).1 topic = some c2 := by
  have hconn : Strat.is_connected w (.redis r) = true := by
    simp [Strat.is_connected, RedisQueueStrategy.is_connected, hc, hup]
  have h1 := managerSubscribe_connected w st topic c1 (.redis r) hen hstrat hconn
  have hconn2 := strat_subscribe_keeps_connected w (.redis r) topic c1 hconn
  have h2 := managerSubscribe_connected w (managerSubscribe w st topic c1).st topic c2
    (Strat.subscribe w (.redis r) topic c1).1 (by rw [h1]; exact hen) (by rw [h1]) hconn2
  have hnew1 : ((alookup st.subscribers topic).getD []).contains c1 = false := by
    simp [hreg]
  have hlook1 := subsAfter_lookup_new st.subscribers topic c1 hnew1
  rw [hreg] at hlook1
  simp only [Option.getD_none, List.nil_append] at hlook1
  have hnew2 : ((alookup (subsAfter st.subscribers topic c1) topic).getD []).contains c2 = false := by
    simp [hlook1, hne, Ne.symm hne]
  have hlook2 := subsAfter_lookup_new (subsAfter st.subscribers topic c1) topic c2 hnew2
  rw [hlook1] at hlook2
  simp only [Option.getD_some] at hlook2
  have hr1 := redis_subscribe_callbacks w r topic c1 hc hup
  have hr2 := redis_subscribe_callbacks w (RedisQueueStrategy.subscribe w r topic c1).1
    topic c2 hr1.2 hup
  have hm1 := mqtt_subscribe_callbacks w m topic c1 hmconn
  have hm2 := mqtt_subscribe_callbacks w (MQTTQueueStrategy.subscribe w m topic c1).1
    topic c2 hm1.2
  refine ⟨?_, ?_, ?_⟩
  · rw [h2, h1]
    exact hlook2
  · refine ⟨(RedisQueueStrategy.subscribe w
        (RedisQueueStrategy.subscribe w r topic c1).1 topic c2).1, ?_, ?_, ?_⟩
    · rw [h2, h1]
      simp [Strat.subscribe]
    · rw [RedisQueueStrategy.dispatchTarget, hr2.1, hr1.1]
      exact alookup_aset_self _ _ _
    · rw [hr2.1, hr1.1]
      exact aset_keys_nodup _ _ _ (aset_keys_nodup _ _ _ hnodup)
  · rw [MQTTQueueStrategy.dispatchTarget, hm2.1, hm1.1]
    exact alookup_aset_self _ _ _

/-- Witness for claim C9 at a concrete Redis-backed Manager, MQTT strategy
and two distinct callbacks. -/
theorem strategy_table_overwrites_witness :
    ((({ freshRedis with redis_client := true, pubsub := true } : RedisState).redis_client = true) ∧
      MQTTQueueStrategy.is_connected
        { freshMqtt with client := true, _connected := true, _status := "connected" } = true ∧
      (4 : Nat) ≠ 9) ∧
    MQTTQueueStrategy.dispatchTarget
      (MQTTQueueStrategy.subscribe
        ⟨⟨2026, 1, 1, 0, 0, 0⟩, true, "", false, true, true, "", [], 0, 0, 0⟩
        (MQTTQueueStrategy.subscribe
          ⟨⟨2026, 1, 1, 0, 0, 0⟩, true, "", false, true, true, "", [], 0, 0, 0⟩
          { freshMqtt with client := true, _connected := true, _status := "connected" }
          "alerts" 4).1
        "alerts" 9).1 "alerts" = some 9 := by
  refine ⟨⟨rfl, rfl, by decide⟩, ?_⟩
  have key := strategy_table_overwrites
    ⟨⟨2026, 1, 1, 0, 0, 0⟩, true, "", false, true, true, "", [], 0, 0, 0⟩
    ⟨⟨true, "redis"⟩, some (.redis { freshRedis with redis_client := true, pubsub := true }), []⟩
    "alerts" 4 9 { freshRedis with redis_client := true, pubsub := true }
    { freshMqtt with client := true, _connected := true, _status := "connected" }
    rfl rfl rfl rfl rfl (by simp [freshRedis]) rfl (by decide)
  exact key.2.2
